import Mathlib

/-!
Shallow embedding of the `char-o-sel` carousel engine (`src/script.js`,
class `COSElement`, full variant with drag support) in Lean 4.

Numbers are modelled as rationals. DOM side effects are modelled as
explicit state fields: `trackTransform` records the last `translateX`
value applied to the track, `preventedDefaults` counts `preventDefault`
calls, and `frameRequests` counts `requestAnimationFrame` calls.
-/

namespace CharOSel

/-- Scroll direction enum: the JS string field `#scrollDirection`,
either `"down"` or `"up"`. -/
inductive ScrollDir where
  | down
  | up
deriving DecidableEq

/-- Touch axis-lock enum: the JS string field `#touchDirection`,
`"horizontal"` or `"vertical"` (`none` models the JS `null`). -/
inductive TouchDir where
  | horizontal
  | vertical
deriving DecidableEq

/-- The mutable per-instance state of `COSElement` that the motion
engine reads and writes. -/
structure COSState where
  initialItemsWidth : ℚ
  lastScrollY : ℚ
  scrollDirection : ScrollDir
  currentPosition : ℚ
  baseSpeed : ℚ
  currentSpeed : ℚ
  speedBoostMultiplier : ℚ
  speedDecayRate : ℚ
  isDragging : Bool
  dragStartX : ℚ
  dragStartY : ℚ
  dragStartPosition : ℚ
  touchDirectionDetermined : Bool
  touchDirection : Option TouchDir
  trackTransform : ℚ
  preventedDefaults : ℕ
  frameRequests : ℕ
deriving DecidableEq

/-- The field-initializer defaults of `COSElement` (`#scrollDirection =
"down"`, `#currentPosition = 0`, `#baseSpeed = 1`, `#currentSpeed = 1`,
`#speedBoostMultiplier = 3`, `#speedDecayRate = 0.1`, ...); the
constructor additionally records `window.scrollY` in `#lastScrollY`,
passed here as `scrollY`.  `initialItemsWidth` is filled in by
layout measurement, passed here as `width`. -/
def initialState (scrollY width : ℚ) : COSState where
  initialItemsWidth := width
  lastScrollY := scrollY
  scrollDirection := ScrollDir.down
  currentPosition := 0
  baseSpeed := 1
  currentSpeed := 1
  speedBoostMultiplier := 3
  speedDecayRate := 1 / 10
  isDragging := false
  dragStartX := 0
  dragStartY := 0
  dragStartPosition := 0
  touchDirectionDetermined := false
  touchDirection := none
  trackTransform := 0
  preventedDefaults := 0
  frameRequests := 0

/-- Truncation toward zero, as the JavaScript `%` operator applies to
its quotient. -/
def ratTrunc (q : ℚ) : ℤ :=
  if 0 ≤ q then ⌊q⌋ else ⌈q⌉

/-- The JavaScript remainder operator `a % b` on (finite) numbers:
`a - b * trunc (a / b)`, the remainder carrying the sign of `a`. -/
def jsMod (a b : ℚ) : ℚ :=
  a - b * (ratTrunc (a / b) : ℚ)

/-- The normalization step that appears verbatim in `#handleMouseMove`,
`#handleMouseUp`, `#handleMouseLeave`, `#handleTouchMove`,
`#handleTouchEnd` and `#handleTouchCancel`:
`p = ((p % range) + range) % range; if (p >= 0) { p -= range; }`. -/
def normalizePosition (p range : ℚ) : ℚ :=
  let m := jsMod (jsMod p range + range) range
  if 0 ≤ m then m - range else m

/-- JS `#applySpeedBoost`: unconditionally sets
`#currentSpeed = #baseSpeed * #speedBoostMultiplier`. -/
def applySpeedBoost (s : COSState) : COSState :=
  { s with currentSpeed := s.baseSpeed * s.speedBoostMultiplier }

/-- The closure installed by `#setupWindowScrollHandler`, with the value
read from `window.scrollY` passed as `currentScrollY`:
derives `newDirection` by `currentScrollY > #lastScrollY ? "down" : "up"`,
boosts on every event, overwrites the direction only when it differs,
and records `#lastScrollY = currentScrollY` unconditionally. -/
def windowScrollHandler (s : COSState) (currentScrollY : ℚ) : COSState :=
  let newDirection :=
    if s.lastScrollY < currentScrollY then ScrollDir.down else ScrollDir.up
  let s1 := applySpeedBoost s
  let s2 :=
    if newDirection ≠ s1.scrollDirection then
      { s1 with scrollDirection := newDirection }
    else s1
  { s2 with lastScrollY := currentScrollY }

/-- The speed-decay statement at the top of `#animate`:
`if (currentSpeed > baseSpeed) currentSpeed =
Math.max(baseSpeed, currentSpeed - (currentSpeed - baseSpeed) * speedDecayRate)`. -/
def advanceSpeed (base cur decay : ℚ) : ℚ :=
  if base < cur then max base (cur - (cur - base) * decay) else cur

/-- The speed `#animate` holds after its decay statement. -/
def decayedSpeed (s : COSState) : ℚ :=
  advanceSpeed s.baseSpeed s.currentSpeed s.speedDecayRate

/-- The position `#animate` holds after the direction-based movement:
`"down"` moves left (subtract speed), otherwise right (add speed). -/
def movedPosition (s : COSState) : ℚ :=
  if s.scrollDirection = ScrollDir.down then s.currentPosition - decayedSpeed s
  else s.currentPosition + decayedSpeed s

/-- The wrap step of `#animate`:
`if (pos <= -initialItemsWidth) pos = 0; else if (pos >= 0)
pos = -initialItemsWidth;`. -/
def wrappedPosition (s : COSState) : ℚ :=
  if movedPosition s ≤ -s.initialItemsWidth then 0
  else if 0 ≤ movedPosition s then -s.initialItemsWidth
  else movedPosition s

/-- One animation tick, JS `#animate`: skipped entirely while
`#isDragging` except for re-scheduling itself via
`requestAnimationFrame` (modelled by incrementing `frameRequests`);
otherwise decays the speed, moves the position by the signed speed,
wraps it, and applies the transform. -/
def animate (s : COSState) : COSState :=
  if s.isDragging = false then
    { s with
      currentSpeed := decayedSpeed s
      currentPosition := wrappedPosition s
      trackTransform := wrappedPosition s
      frameRequests := s.frameRequests + 1 }
  else { s with frameRequests := s.frameRequests + 1 }

/-- JS `#handleMouseDown`: marks the drag session active and captures
the start pointer x and the pre-drag position. -/
def handleMouseDown (s : COSState) (clientX : ℚ) : COSState :=
  { s with
    isDragging := true
    dragStartX := clientX
    dragStartPosition := s.currentPosition }

/-- JS `#handleMouseMove`: while dragging, sets the stored position
absolutely to `dragStartPosition + (clientX - dragStartX)` and applies a
normalized visual position to the transform. -/
def handleMouseMove (s : COSState) (clientX : ℚ) : COSState :=
  if s.isDragging = false then s
  else
    { s with
      currentPosition := s.dragStartPosition + (clientX - s.dragStartX)
      trackTransform :=
        normalizePosition (s.dragStartPosition + (clientX - s.dragStartX))
          s.initialItemsWidth }

/-- JS `#handleMouseUp`: if a drag was active, ends it and commits the
normalized position. -/
def handleMouseUp (s : COSState) : COSState :=
  if s.isDragging = true then
    { s with
      isDragging := false
      currentPosition := normalizePosition s.currentPosition s.initialItemsWidth }
  else s

/-- JS `#handleTouchStart` with `numTouches` fingers: only a single touch
is handled; it records the start coordinates and pre-drag position and
resets the axis-lock state, engaging nothing yet. -/
def handleTouchStart (s : COSState) (numTouches : ℕ) (clientX clientY : ℚ) :
    COSState :=
  if numTouches ≠ 1 then s
  else
    { s with
      dragStartX := clientX
      dragStartY := clientY
      dragStartPosition := s.currentPosition
      touchDirectionDetermined := false
      touchDirection := none }

/-- The common tail of `#handleTouchMove` (reached once the axis
decision has been made, or straight after a horizontal lock): returns
early on a vertical lock or when not dragging; otherwise prevents the
default scroll, sets the position absolutely and applies the normalized
visual position. -/
def touchMoveCommon (s : COSState) (clientX : ℚ) : COSState :=
  if s.touchDirection = some TouchDir.vertical then s
  else if s.isDragging = false then s
  else
    { s with
      preventedDefaults := s.preventedDefaults + 1
      currentPosition := s.dragStartPosition + (clientX - s.dragStartX)
      trackTransform :=
        normalizePosition (s.dragStartPosition + (clientX - s.dragStartX))
          s.initialItemsWidth }

/-- JS `#handleTouchMove` with `numTouches` fingers: while the axis is
undetermined, a move at or below the 5px threshold in both axes does
nothing; the first move exceeding it locks horizontal (engaging the
drag and falling through to the drag processing) exactly when
`|deltaX| > |deltaY|`, and otherwise locks vertical and returns. -/
def handleTouchMove (s : COSState) (numTouches : ℕ) (clientX clientY : ℚ) :
    COSState :=
  if numTouches ≠ 1 then s
  else if s.touchDirectionDetermined = false then
    if 5 < |clientX - s.dragStartX| ∨ 5 < |clientY - s.dragStartY| then
      if |clientY - s.dragStartY| < |clientX - s.dragStartX| then
        touchMoveCommon
          { s with
            touchDirectionDetermined := true
            touchDirection := some TouchDir.horizontal
            isDragging := true } clientX
      else
        { s with
          touchDirectionDetermined := true
          touchDirection := some TouchDir.vertical
          isDragging := false }
    else s
  else touchMoveCommon s clientX

/-- JS `#handleTouchEnd`: if a drag was active, ends it and commits the
normalized position; the axis-lock state is reset in every case. -/
def handleTouchEnd (s : COSState) : COSState :=
  let s1 :=
    if s.isDragging = true then
      { s with
        isDragging := false
        currentPosition :=
          normalizePosition s.currentPosition s.initialItemsWidth }
    else s
  { s1 with touchDirectionDetermined := false, touchDirection := none }

/-- Folding `#handleMouseMove` over a list of pointer x positions. -/
def runMouseMoves (s : COSState) (xs : List ℚ) : COSState :=
  xs.foldl handleMouseMove s

/-- A whole mouse drag session: `mousedown` at `x0`, the given sequence
of `mousemove` positions, then `mouseup`. -/
def mouseSession (s : COSState) (x0 : ℚ) (moves : List ℚ) : COSState :=
  handleMouseUp (runMouseMoves (handleMouseDown s x0) moves)

/-- The `#currentSpeed` sequence produced by repeated animation-tick
decay steps starting from `cur`. -/
def speedSeq (base decay cur : ℚ) : ℕ → ℚ
  | 0 => cur
  | n + 1 => advanceSpeed base (speedSeq base decay cur n) decay

/-- Outcome-relevant shape of the host markup at attach time: whether a
`[data-track]` child exists and how many `[data-item]` children the
element has. -/
structure AttachConfig where
  hasTrack : Bool
  itemCount : ℕ
deriving DecidableEq

/-- The operations invoked from the body of `connectedCallback`, one
constructor per call, named after the private methods. -/
inductive AttachStep where
  | checkRequired
  | calculateWidth
  | cloneAppend
  | setupResizeHandler
  | setupResizeListener
  | setupScrollHandler
  | setupScrollListener
  | setupDragListeners
  | startAnimation
deriving DecidableEq

/-- JS `#checkRequiredElements`: throws `"Track element not found"`
when the track is missing, then `"Items element not found"` when the
item collection is empty. -/
def checkRequiredElements (c : AttachConfig) : Except String Unit :=
  if c.hasTrack = false then Except.error ("Track element not found")
  else if c.itemCount = 0 then Except.error ("Items element not found")
  else Except.ok ()

/-- The calls in the body of `connectedCallback`, in source order. -/
def attachSequence : List AttachStep :=
  [AttachStep.checkRequired, AttachStep.calculateWidth,
   AttachStep.cloneAppend, AttachStep.setupResizeHandler,
   AttachStep.setupResizeListener, AttachStep.setupScrollHandler,
   AttachStep.setupScrollListener, AttachStep.setupDragListeners,
   AttachStep.startAnimation]

/-- JS `connectedCallback`: runs `#checkRequiredElements` first; an
exception there propagates, so no later call runs.  The first component
is the list of completed calls, the second the error message, if any. -/
def connectedCallback (c : AttachConfig) : List AttachStep × Option String :=
  match checkRequiredElements c with
  | Except.error e => ([], some e)
  | Except.ok _ => (attachSequence, none)

/-- A concrete state in the middle of an active pointer-drag session,
used by witnesses. -/
def sampleDragging : COSState :=
  { initialState 0 2 with
    isDragging := true
    dragStartX := 1
    dragStartPosition := -1 }

/-- For a nonnegative dividend and positive divisor, the JS remainder
lies in `[0, b)`. -/
lemma jsMod_bounds_of_nonneg {a b : ℚ} (hb : 0 < b) (ha : 0 ≤ a) :
    0 ≤ jsMod a b ∧ jsMod a b < b := by
  have hb' : b ≠ 0 := ne_of_gt hb
  have hq : 0 ≤ a / b := div_nonneg ha hb.le
  have hkey : jsMod a b = b * Int.fract (a / b) := by
    rw [jsMod, ratTrunc, if_pos hq, Int.fract]
    field_simp
  rw [hkey]
  refine ⟨mul_nonneg hb.le (Int.fract_nonneg _), ?_⟩
  calc b * Int.fract (a / b) < b * 1 :=
        (mul_lt_mul_left hb).mpr (Int.fract_lt_one _)
    _ = b := mul_one b

/-- For a negative dividend and positive divisor, the JS remainder lies
in `(-b, 0]`. -/
lemma jsMod_bounds_of_neg {a b : ℚ} (hb : 0 < b) (ha : a < 0) :
    -b < jsMod a b ∧ jsMod a b ≤ 0 := by
  have hb' : b ≠ 0 := ne_of_gt hb
  have hq : a / b < 0 := div_neg_of_neg_of_pos ha hb
  have hq' : ¬ 0 ≤ a / b := not_le.mpr hq
  rw [jsMod, ratTrunc, if_neg hq']
  have h1 : a / b ≤ ((⌈a / b⌉ : ℤ) : ℚ) := Int.le_ceil _
  have h2 : ((⌈a / b⌉ : ℤ) : ℚ) < a / b + 1 := Int.ceil_lt_add_one _
  have e : b * (a / b) = a := by field_simp
  constructor
  · have := mul_lt_mul_of_pos_left h2 hb
    rw [mul_add, e, mul_one] at this
    linarith
  · have := mul_le_mul_of_nonneg_left h1 hb.le
    rw [e] at this
    linarith

/-- For a positive divisor, the JS remainder lies in `(-b, b)`. -/
lemma jsMod_bounds {a b : ℚ} (hb : 0 < b) :
    -b < jsMod a b ∧ jsMod a b < b := by
  rcases le_or_lt 0 a with ha | ha
  · obtain ⟨h1, h2⟩ := jsMod_bounds_of_nonneg hb ha
    exact ⟨by linarith, h2⟩
  · obtain ⟨h1, h2⟩ := jsMod_bounds_of_neg hb ha
    exact ⟨h1, by linarith⟩

/-- The JS remainder differs from the dividend by an integer multiple
of the divisor. -/
lemma jsMod_congr (a b : ℚ) : ∃ k : ℤ, jsMod a b = a - b * (k : ℚ) :=
  ⟨ratTrunc (a / b), rfl⟩

/-- The commit-time normalization lands in `[-b, 0)`. -/
lemma normalizePosition_mem {p b : ℚ} (hb : 0 < b) :
    -b ≤ normalizePosition p b ∧ normalizePosition p b < 0 := by
  obtain ⟨hm1, _⟩ := jsMod_bounds (a := p) hb
  have hpos : 0 ≤ jsMod p b + b := by linarith
  obtain ⟨h2a, h2b⟩ := jsMod_bounds_of_nonneg hb hpos
  simp only [normalizePosition]
  rw [if_pos h2a]
  exact ⟨by linarith, by linarith⟩

/-- The commit-time normalization changes the position by an integer
multiple of the loop period. -/
lemma normalizePosition_congr (p b : ℚ) :
    ∃ k : ℤ, normalizePosition p b = p + b * (k : ℚ) := by
  obtain ⟨k1, h1⟩ := jsMod_congr p b
  obtain ⟨k2, h2⟩ := jsMod_congr (jsMod p b + b) b
  simp only [normalizePosition]
  split
  · exact ⟨-k1 - k2, by rw [h2, h1]; push_cast; ring⟩
  · exact ⟨1 - k1 - k2, by rw [h2, h1]; push_cast; ring⟩

/-- A single `mousemove` never touches the drag bookkeeping fields or
the measured width. -/
lemma handleMouseMove_fields (s : COSState) (x : ℚ) :
    (handleMouseMove s x).isDragging = s.isDragging ∧
    (handleMouseMove s x).dragStartX = s.dragStartX ∧
    (handleMouseMove s x).dragStartPosition = s.dragStartPosition ∧
    (handleMouseMove s x).initialItemsWidth = s.initialItemsWidth := by
  unfold handleMouseMove
  split
  · exact ⟨rfl, rfl, rfl, rfl⟩
  · exact ⟨rfl, rfl, rfl, rfl⟩

/-- Folded `mousemove`s never touch the drag bookkeeping fields or the
measured width. -/
lemma runMouseMoves_fields (xs : List ℚ) : ∀ s : COSState,
    (runMouseMoves s xs).isDragging = s.isDragging ∧
    (runMouseMoves s xs).dragStartX = s.dragStartX ∧
    (runMouseMoves s xs).dragStartPosition = s.dragStartPosition ∧
    (runMouseMoves s xs).initialItemsWidth = s.initialItemsWidth := by
  induction xs with
  | nil => exact fun s => ⟨rfl, rfl, rfl, rfl⟩
  | cons x xs ih =>
    intro s
    have h := handleMouseMove_fields s x
    have h' := ih (handleMouseMove s x)
    exact ⟨h'.1.trans h.1, h'.2.1.trans h.2.1,
      h'.2.2.1.trans h.2.2.1, h'.2.2.2.trans h.2.2.2⟩

/-- Splitting off the last `mousemove` of a session. -/
lemma runMouseMoves_concat (s : COSState) (ys : List ℚ) (xF : ℚ) :
    runMouseMoves s (ys ++ [xF]) = handleMouseMove (runMouseMoves s ys) xF := by
  simp [runMouseMoves, List.foldl_append]

/-- While a drag is active, a `mousemove` sets the position absolutely
from the session start data. -/
lemma handleMouseMove_position (s : COSState) (x : ℚ)
    (hd : s.isDragging = true) :
    (handleMouseMove s x).currentPosition =
      s.dragStartPosition + (x - s.dragStartX) := by
  unfold handleMouseMove
  rw [if_neg (by simp [hd])]

/-- The position committed at the end of a full mouse drag session is
the normalization of the pre-drag position plus the total pointer
delta, taken from the last move. -/
lemma mouseSession_commit (s : COSState) (x0 xF : ℚ) (ys : List ℚ) :
    (mouseSession s x0 (ys ++ [xF])).currentPosition =
      normalizePosition (s.currentPosition + (xF - x0))
        s.initialItemsWidth := by
  have hf := runMouseMoves_fields ys (handleMouseDown s x0)
  set t := runMouseMoves (handleMouseDown s x0) ys with ht
  have htd : t.isDragging = true := hf.1
  have htx : t.dragStartX = x0 := hf.2.1
  have htp : t.dragStartPosition = s.currentPosition := hf.2.2.1
  have htw : t.initialItemsWidth = s.initialItemsWidth := hf.2.2.2
  have hmf := handleMouseMove_fields t xF
  have hud : (handleMouseMove t xF).isDragging = true := hmf.1.trans htd
  have hup : (handleMouseMove t xF).currentPosition =
      s.currentPosition + (xF - x0) := by
    rw [handleMouseMove_position t xF htd, htx, htp]
  rw [mouseSession, runMouseMoves_concat, ← ht]
  unfold handleMouseUp
  rw [if_pos hud]
  show normalizePosition (handleMouseMove t xF).currentPosition
      (handleMouseMove t xF).initialItemsWidth = _
  rw [hup, hmf.2.2.2, htw]

/-- One decay step shrinks the gap above base speed by the factor
`1 - decay`, with no undershoot. -/
lemma advanceSpeed_gap {base cur decay : ℚ} (hbc : base ≤ cur)
    (hd1 : decay ≤ 1) :
    advanceSpeed base cur decay = base + (cur - base) * (1 - decay) := by
  rcases eq_or_lt_of_le hbc with heq | hlt
  · rw [advanceSpeed, if_neg (not_lt.mpr (le_of_eq heq.symm)), ← heq]
    ring
  · rw [advanceSpeed, if_pos hlt]
    have hle : base ≤ cur - (cur - base) * decay := by nlinarith
    rw [max_eq_right hle]
    ring

/-- Closed form of the decayed speed sequence: the gap above base speed
is multiplied by `1 - decay` each tick. -/
lemma speedSeq_closed {base cur decay : ℚ} (hbc : base ≤ cur)
    (hd1 : decay ≤ 1) :
    ∀ n, speedSeq base decay cur n = base + (cur - base) * (1 - decay) ^ n := by
  intro n
  induction n with
  | zero => simp [speedSeq]
  | succ n ih =>
    have hge : base ≤ speedSeq base decay cur n := by
      rw [ih]
      nlinarith [mul_nonneg (by linarith : (0:ℚ) ≤ cur - base)
        (pow_nonneg (by linarith : (0:ℚ) ≤ 1 - decay) n)]
    rw [speedSeq, advanceSpeed_gap hge hd1, ih]
    ring

/-- Claim C1, counterexample: on the very first tick from the initial
state of the program itself, with loop period 1 and no drag active, the forward
wrap branch fires (`0 - 1 ≤ -1`) and resets the position to `0`, which
is outside the claimed half-open interval `[-loopPeriod, 0)`. -/
theorem claim1_counterexample :
    (initialState 0 1).isDragging = false ∧
    0 < (initialState 0 1).initialItemsWidth ∧
    (animate (initialState 0 1)).currentPosition = 0 ∧
    ¬((animate (initialState 0 1)).currentPosition < 0) := by
  norm_num [animate, initialState, wrappedPosition, movedPosition,
    decayedSpeed, advanceSpeed]

/-- Claim C1, amended: for every animation tick executed with no active
drag session and `loopPeriod > 0`, the committed position at the end of
the tick lies in the closed interval `[-loopPeriod, 0]` — the forward
wrap branch (firing when `position ≤ -loopPeriod`) lands exactly on the
right endpoint `0`, so `0` itself is reachable and the interval cannot
be taken half-open. -/
theorem animate_position_in_closed_range (s : COSState)
    (hdrag : s.isDragging = false) (hw : 0 < s.initialItemsWidth) :
    -s.initialItemsWidth ≤ (animate s).currentPosition ∧
    (animate s).currentPosition ≤ 0 := by
  have h : (animate s).currentPosition = wrappedPosition s := by
    simp [animate, hdrag]
  rw [h]
  unfold wrappedPosition
  split_ifs with h1 h2
  · exact ⟨by linarith, le_refl 0⟩
  · exact ⟨le_refl _, by linarith⟩
  · push_neg at h1 h2
    exact ⟨h1.le, h2.le⟩

/-- Witness for the amended claim C1 at the concrete initial state with
loop period 1. -/
theorem animate_position_in_closed_range_witness :
    (initialState 0 1).isDragging = false ∧
    0 < (initialState 0 1).initialItemsWidth ∧
    (-(initialState 0 1).initialItemsWidth ≤
        (animate (initialState 0 1)).currentPosition ∧
      (animate (initialState 0 1)).currentPosition ≤ 0) :=
  ⟨rfl, by norm_num [initialState],
    animate_position_in_closed_range (initialState 0 1) rfl
      (by norm_num [initialState])⟩

/-- Claim C2: with `currentSpeed > baseSpeed` and `decayRate ∈ (0,1]`,
one decay step sets the speed to
`max (baseSpeed, currentSpeed - (currentSpeed - baseSpeed) * decayRate)`;
the sequence of repeated steps is monotonically non-increasing, never
drops below `baseSpeed`, and converges to `baseSpeed`; and this is
exactly the speed update an undisturbed animation tick performs. -/
theorem boosted_speed_decay (base cur decay : ℚ) (hcur : base < cur)
    (hd0 : 0 < decay) (hd1 : decay ≤ 1) :
    advanceSpeed base cur decay = max base (cur - (cur - base) * decay)
    ∧ (∀ n, speedSeq base decay cur (n + 1) ≤ speedSeq base decay cur n)
    ∧ (∀ n, base ≤ speedSeq base decay cur n)
    ∧ (∀ ε : ℚ, 0 < ε → ∃ N, ∀ n, N ≤ n →
        speedSeq base decay cur n - base < ε)
    ∧ (∀ s : COSState, s.isDragging = false →
        (animate s).currentSpeed =
          advanceSpeed s.baseSpeed s.currentSpeed s.speedDecayRate) := by
  have hbc : base ≤ cur := hcur.le
  have h1d0 : (0:ℚ) ≤ 1 - decay := by linarith
  have h1d1 : 1 - decay ≤ 1 := by linarith
  have h1dlt : 1 - decay < 1 := by linarith
  have hgap : 0 < cur - base := by linarith
  refine ⟨?_, ?_, ?_, ?_, ?_⟩
  · rw [advanceSpeed, if_pos hcur]
  · intro n
    rw [speedSeq_closed hbc hd1, speedSeq_closed hbc hd1]
    have hpow : (1 - decay) ^ (n + 1) ≤ (1 - decay) ^ n :=
      pow_le_pow_of_le_one h1d0 h1d1 (Nat.le_succ n)
    nlinarith [mul_le_mul_of_nonneg_left hpow hgap.le]
  · intro n
    rw [speedSeq_closed hbc hd1]
    nlinarith [mul_nonneg hgap.le (pow_nonneg h1d0 n)]
  · intro ε hε
    obtain ⟨N, hN⟩ := exists_pow_lt_of_lt_one (div_pos hε hgap) h1dlt
    refine ⟨N, fun n hn => ?_⟩
    rw [speedSeq_closed hbc hd1]
    have hmono : (1 - decay) ^ n ≤ (1 - decay) ^ N :=
      pow_le_pow_of_le_one h1d0 h1d1 hn
    have hlt : (1 - decay) ^ n < ε / (cur - base) := lt_of_le_of_lt hmono hN
    calc base + (cur - base) * (1 - decay) ^ n - base
        = (cur - base) * (1 - decay) ^ n := by ring
      _ < (cur - base) * (ε / (cur - base)) :=
          (mul_lt_mul_left hgap).mpr hlt
      _ = ε := by field_simp
  · intro s hs
    simp [animate, hs, decayedSpeed]

/-- Witness for claim C2 at the constants the program itself uses:
`baseSpeed = 1`, boosted speed `3`, `decayRate = 1/10`. -/
theorem boosted_speed_decay_witness :
    ((1:ℚ) < 3 ∧ (0:ℚ) < 1 / 10 ∧ (1:ℚ) / 10 ≤ 1) ∧
    (advanceSpeed 1 3 (1 / 10) = max 1 (3 - (3 - 1) * (1 / 10))
     ∧ (∀ n, speedSeq 1 (1 / 10) 3 (n + 1) ≤ speedSeq 1 (1 / 10) 3 n)
     ∧ (∀ n, 1 ≤ speedSeq 1 (1 / 10) 3 n)
     ∧ (∀ ε : ℚ, 0 < ε → ∃ N, ∀ n, N ≤ n →
          speedSeq 1 (1 / 10) 3 n - 1 < ε)
     ∧ (∀ s : COSState, s.isDragging = false →
          (animate s).currentSpeed =
            advanceSpeed s.baseSpeed s.currentSpeed s.speedDecayRate)) :=
  ⟨⟨by norm_num, by norm_num, by norm_num⟩,
    boosted_speed_decay 1 3 (1 / 10) (by norm_num) (by norm_num) (by norm_num)⟩

/-- Claim C5: a tick that runs while a drag session is active applies
no autonomous movement — position, speed and the applied transform are
untouched and only a new frame is requested. -/
theorem animate_skips_while_dragging (s : COSState)
    (h : s.isDragging = true) :
    (animate s).currentPosition = s.currentPosition ∧
    (animate s).currentSpeed = s.currentSpeed ∧
    (animate s).trackTransform = s.trackTransform ∧
    (animate s).frameRequests = s.frameRequests + 1 := by
  have heq : animate s = { s with frameRequests := s.frameRequests + 1 } := by
    simp [animate, h]
  rw [heq]
  exact ⟨rfl, rfl, rfl, rfl⟩

/-- Witness for claim C5 at a concrete mid-drag state. -/
theorem animate_skips_while_dragging_witness :
    sampleDragging.isDragging = true ∧
    ((animate sampleDragging).currentPosition = sampleDragging.currentPosition ∧
     (animate sampleDragging).currentSpeed = sampleDragging.currentSpeed ∧
     (animate sampleDragging).trackTransform = sampleDragging.trackTransform ∧
     (animate sampleDragging).frameRequests = sampleDragging.frameRequests + 1) :=
  ⟨rfl, animate_skips_while_dragging sampleDragging rfl⟩

/-- Claim C3: over a positive loop period `w`, a full pointer drag
session commits exactly the normalization of the pre-drag position plus
the total pointer delta; the normalization always lands in `[-w, 0)`
and is congruent to its input modulo `w`; and a touch drag end commits
the same normalization of its accumulated position. -/
theorem drag_commit_normalizes (w : ℚ) (hw : 0 < w) :
    (∀ (s : COSState) (x0 xF : ℚ) (ys : List ℚ),
        s.initialItemsWidth = w →
        (mouseSession s x0 (ys ++ [xF])).currentPosition =
          normalizePosition (s.currentPosition + (xF - x0)) w)
    ∧ (∀ p : ℚ,
        -w ≤ normalizePosition p w ∧ normalizePosition p w < 0 ∧
        ∃ k : ℤ, normalizePosition p w = p + w * (k : ℚ))
    ∧ (∀ s : COSState, s.initialItemsWidth = w → s.isDragging = true →
        (handleTouchEnd s).currentPosition =
          normalizePosition s.currentPosition w) := by
  refine ⟨?_, ?_, ?_⟩
  · intro s x0 xF ys hsw
    rw [mouseSession_commit, hsw]
  · intro p
    obtain ⟨h1, h2⟩ := normalizePosition_mem (p := p) hw
    obtain ⟨k, hk⟩ := normalizePosition_congr p w
    exact ⟨h1, h2, k, hk⟩
  · intro s hsw hd
    simp [handleTouchEnd, hd, hsw]

/-- Witness for claim C3: loop period 2, pre-drag position 0, pointer
from 4 via 6 to 9 — the commit equals the normalization of the total
delta 5. -/
theorem drag_commit_normalizes_witness :
    (0:ℚ) < 2 ∧
    (mouseSession (initialState 0 2) 4 ([6] ++ [9])).currentPosition =
      normalizePosition ((initialState 0 2).currentPosition + (9 - 4)) 2 :=
  ⟨by norm_num,
    (drag_commit_normalizes 2 (by norm_num)).1 (initialState 0 2) 4 9 [6] rfl⟩

/-- Claim C10: each `mousemove` during an active drag sets the stored
position absolutely to `dragStartPosition + (pointerX - dragStartX)`,
so two move sequences of one session ending at the same final pointer x
commit identical positions regardless of the intermediate moves. -/
theorem pointer_drag_path_independent :
    (∀ (s : COSState) (x : ℚ), s.isDragging = true →
        (handleMouseMove s x).currentPosition =
          s.dragStartPosition + (x - s.dragStartX))
    ∧ (∀ (s : COSState) (x0 xF : ℚ) (ys1 ys2 : List ℚ),
        (mouseSession s x0 (ys1 ++ [xF])).currentPosition =
          (mouseSession s x0 (ys2 ++ [xF])).currentPosition) := by
  constructor
  · exact handleMouseMove_position
  · intro s x0 xF ys1 ys2
    rw [mouseSession_commit, mouseSession_commit]

/-- Witness for claim C10: two different move sequences ending at
pointer x `9` commit the same position. -/
theorem pointer_drag_path_independent_witness :
    (sampleDragging.isDragging = true ∧
      (handleMouseMove sampleDragging 7).currentPosition =
        sampleDragging.dragStartPosition + (7 - sampleDragging.dragStartX)) ∧
    (mouseSession (initialState 0 2) 0 ([1, 5] ++ [9])).currentPosition =
      (mouseSession (initialState 0 2) 0 ([-3] ++ [9])).currentPosition :=
  ⟨⟨rfl, pointer_drag_path_independent.1 sampleDragging 7 rfl⟩,
    pointer_drag_path_independent.2 (initialState 0 2) 0 9 [1, 5] [-3]⟩

/-- Claim C4: the single-finger axis-lock state machine — while both
displacements are at or below the 5px threshold the move is a no-op;
the first move exceeding it locks horizontal (engaging the drag and
processing the move) exactly when the horizontal displacement exceeds
the vertical one, and otherwise locks vertical without engaging; a
vertical lock makes every further move a no-op, and a horizontal lock
keeps processing moves as drag. -/
theorem touch_axis_lock (s : COSState) (x y : ℚ) :
    (s.touchDirectionDetermined = false →
      |x - s.dragStartX| ≤ 5 → |y - s.dragStartY| ≤ 5 →
      handleTouchMove s 1 x y = s)
    ∧ (s.touchDirectionDetermined = false →
      (5 < |x - s.dragStartX| ∨ 5 < |y - s.dragStartY|) →
      ((|y - s.dragStartY| < |x - s.dragStartX| →
          (handleTouchMove s 1 x y).touchDirectionDetermined = true ∧
          (handleTouchMove s 1 x y).touchDirection = some TouchDir.horizontal ∧
          (handleTouchMove s 1 x y).isDragging = true ∧
          (handleTouchMove s 1 x y).currentPosition =
            s.dragStartPosition + (x - s.dragStartX))
        ∧ (|x - s.dragStartX| ≤ |y - s.dragStartY| →
          handleTouchMove s 1 x y =
            { s with
              touchDirectionDetermined := true
              touchDirection := some TouchDir.vertical
              isDragging := false })))
    ∧ (s.touchDirectionDetermined = true →
      s.touchDirection = some TouchDir.vertical →
      handleTouchMove s 1 x y = s)
    ∧ (s.touchDirectionDetermined = true →
      s.touchDirection = some TouchDir.horizontal → s.isDragging = true →
      (handleTouchMove s 1 x y).currentPosition =
        s.dragStartPosition + (x - s.dragStartX) ∧
      (handleTouchMove s 1 x y).preventedDefaults = s.preventedDefaults + 1) := by
  refine ⟨?_, ?_, ?_, ?_⟩
  · intro hdet hx hy
    have hcond : ¬(5 < |x - s.dragStartX| ∨ 5 < |y - s.dragStartY|) := by
      push_neg
      exact ⟨hx, hy⟩
    simp [handleTouchMove, hdet, hcond]
  · intro hdet hthr
    constructor
    · intro hyx
      simp [handleTouchMove, hdet, hthr, hyx, touchMoveCommon]
    · intro hxy
      have hnyx : ¬(|y - s.dragStartY| < |x - s.dragStartX|) := not_lt.mpr hxy
      simp [handleTouchMove, hdet, hthr, hnyx]
  · intro hdet hv
    simp [handleTouchMove, hdet, touchMoveCommon, hv]
  · intro hdet hh hdrag
    simp [handleTouchMove, hdet, touchMoveCommon, hh, hdrag]

/-- Witness for claim C4: the example gesture from the spec with
`deltaX = 10`, `deltaY = 2` locks horizontal and engages the drag. -/
theorem touch_axis_lock_witness :
    ((initialState 0 2).touchDirectionDetermined = false ∧
      (5 < |(10:ℚ) - (initialState 0 2).dragStartX| ∨
        5 < |(2:ℚ) - (initialState 0 2).dragStartY|) ∧
      |(2:ℚ) - (initialState 0 2).dragStartY| <
        |(10:ℚ) - (initialState 0 2).dragStartX|) ∧
    ((handleTouchMove (initialState 0 2) 1 10 2).touchDirectionDetermined = true ∧
      (handleTouchMove (initialState 0 2) 1 10 2).touchDirection =
        some TouchDir.horizontal ∧
      (handleTouchMove (initialState 0 2) 1 10 2).isDragging = true ∧
      (handleTouchMove (initialState 0 2) 1 10 2).currentPosition =
        (initialState 0 2).dragStartPosition +
          (10 - (initialState 0 2).dragStartX)) :=
  ⟨⟨rfl, Or.inl (by norm_num [initialState]), by norm_num [initialState]⟩,
    ((touch_axis_lock (initialState 0 2) 10 2).2.1 rfl
        (Or.inl (by norm_num [initialState]))).1 (by norm_num [initialState])⟩

/-- Claim C6, counterexample: a scroll event with no movement does not
leave the stored direction unchanged — from a stored `"down"` with
`lastScrollY = 100`, an event at the same offset derives `"up"` (the
`>` test is strict) and overwrites the direction. -/
theorem claim6_counterexample :
    (initialState 100 1).scrollDirection = ScrollDir.down ∧
    (initialState 100 1).lastScrollY = 100 ∧
    (windowScrollHandler (initialState 100 1) 100).scrollDirection ≠
      (initialState 100 1).scrollDirection := by
  refine ⟨rfl, rfl, ?_⟩
  have hud : ScrollDir.up ≠ ScrollDir.down := by decide
  norm_num [windowScrollHandler, applySpeedBoost, initialState, hud]

/-- Claim C6, amended: on a scroll event whose offset equals the
previously recorded one, the derived direction is `"up"` (since the
strict `currentScrollY > lastScrollY` test fails), so the stored
direction ends up `"up"`: it is left unchanged exactly when it was
already `"up"`, and a stored `"down"` flips. -/
theorem no_movement_scroll_sets_up (s : COSState) (y : ℚ)
    (h : y = s.lastScrollY) :
    (windowScrollHandler s y).scrollDirection = ScrollDir.up ∧
    (s.scrollDirection = ScrollDir.up →
      (windowScrollHandler s y).scrollDirection = s.scrollDirection) := by
  have hnlt : ¬ s.lastScrollY < y := by
    rw [h]
    exact lt_irrefl _
  have hnew : (if s.lastScrollY < y then ScrollDir.down else ScrollDir.up) =
      ScrollDir.up := if_neg hnlt
  have hmain : (windowScrollHandler s y).scrollDirection = ScrollDir.up := by
    simp only [windowScrollHandler, applySpeedBoost, hnew]
    split
    · rfl
    · next h2 => exact (not_ne_iff.mp h2).symm
  exact ⟨hmain, fun hup => hmain.trans hup.symm⟩

/-- Witness for the amended claim C6 at a concrete no-movement event. -/
theorem no_movement_scroll_sets_up_witness :
    (100:ℚ) = (initialState 100 1).lastScrollY ∧
    ((windowScrollHandler (initialState 100 1) 100).scrollDirection =
        ScrollDir.up ∧
      ((initialState 100 1).scrollDirection = ScrollDir.up →
        (windowScrollHandler (initialState 100 1) 100).scrollDirection =
          (initialState 100 1).scrollDirection)) :=
  ⟨rfl, no_movement_scroll_sets_up (initialState 100 1) 100 rfl⟩

/-- Claim C7: every scroll event sets `currentSpeed` to exactly
`baseSpeed * boostMultiplier` (so boosts never compound, even across a
second event), the resulting direction is the newly derived one (the
store is skipped precisely when it would be a no-op), and the recorded
offset is updated unconditionally. -/
theorem scroll_event_effects (s : COSState) (y : ℚ) :
    (windowScrollHandler s y).currentSpeed =
      s.baseSpeed * s.speedBoostMultiplier
    ∧ (windowScrollHandler s y).scrollDirection =
        (if s.lastScrollY < y then ScrollDir.down else ScrollDir.up)
    ∧ (windowScrollHandler s y).lastScrollY = y
    ∧ ((if s.lastScrollY < y then ScrollDir.down else ScrollDir.up) =
          s.scrollDirection →
        windowScrollHandler s y = { applySpeedBoost s with lastScrollY := y })
    ∧ (∀ y' : ℚ,
        (windowScrollHandler (windowScrollHandler s y) y').currentSpeed =
          s.baseSpeed * s.speedBoostMultiplier) := by
  have hspeed : ∀ (t : COSState) (z : ℚ),
      (windowScrollHandler t z).currentSpeed =
        t.baseSpeed * t.speedBoostMultiplier := by
    intro t z
    simp only [windowScrollHandler, applySpeedBoost]
    split <;> split <;> rfl
  have hbase : ∀ (t : COSState) (z : ℚ),
      (windowScrollHandler t z).baseSpeed = t.baseSpeed := by
    intro t z
    simp only [windowScrollHandler, applySpeedBoost]
    split <;> split <;> rfl
  have hmult : ∀ (t : COSState) (z : ℚ),
      (windowScrollHandler t z).speedBoostMultiplier =
        t.speedBoostMultiplier := by
    intro t z
    simp only [windowScrollHandler, applySpeedBoost]
    split <;> split <;> rfl
  refine ⟨hspeed s y, ?_, rfl, ?_, ?_⟩
  · simp only [windowScrollHandler, applySpeedBoost]
    split <;> split <;> simp_all [not_ne_iff]
  · intro hguard
    simp only [windowScrollHandler, applySpeedBoost]
    rw [if_neg (not_ne_iff.mpr hguard)]
  · intro y'
    rw [hspeed, hbase, hmult]

/-- Witness for claim C7 at a concrete upward-moving scroll event whose
derived direction already matches the stored one. -/
theorem scroll_event_effects_witness :
    ((if (initialState 0 1).lastScrollY < 5 then ScrollDir.down
        else ScrollDir.up) = (initialState 0 1).scrollDirection) ∧
    windowScrollHandler (initialState 0 1) 5 =
      { applySpeedBoost (initialState 0 1) with lastScrollY := 5 } :=
  ⟨by norm_num [initialState],
    (scroll_event_effects (initialState 0 1) 5).2.2.2.1
      (by norm_num [initialState])⟩

/-- Claim C8, counterexample: on a well-formed host (track present,
three items) the attach sequence completes without error, yet the
width measurement does not come after the clone-and-append step — it
comes before it. -/
theorem claim8_counterexample :
    (connectedCallback (AttachConfig.mk true 3)).2 = none ∧
    ¬((connectedCallback (AttachConfig.mk true 3)).1.indexOf
        AttachStep.cloneAppend <
      (connectedCallback (AttachConfig.mk true 3)).1.indexOf
        AttachStep.calculateWidth) := by
  decide

/-- Claim C8, amended: in every successful attach, the initial width
measurement runs before the clone-and-append step, so it is taken on
the pre-clone track (it measures only the item list captured at
construction, which never contains clones). -/
theorem width_measured_before_clone (c : AttachConfig)
    (h : (connectedCallback c).2 = none) :
    (connectedCallback c).1.indexOf AttachStep.calculateWidth <
      (connectedCallback c).1.indexOf AttachStep.cloneAppend := by
  unfold connectedCallback at h ⊢
  cases hE : checkRequiredElements c with
  | error e =>
    rw [hE] at h
    simp at h
  | ok u =>
    cases u
    decide

/-- Witness for the amended claim C8 at a concrete well-formed host. -/
theorem width_measured_before_clone_witness :
    (connectedCallback (AttachConfig.mk true 3)).2 = none ∧
    (connectedCallback (AttachConfig.mk true 3)).1.indexOf
        AttachStep.calculateWidth <
      (connectedCallback (AttachConfig.mk true 3)).1.indexOf
        AttachStep.cloneAppend :=
  ⟨by decide, width_measured_before_clone (AttachConfig.mk true 3) (by decide)⟩

/-- Claim C9: attach fails exactly when the track is missing or the
item collection is empty; the missing-track error is reported first;
and on failure no setup step at all has completed — nothing cloned, no
listeners registered, no animation started. -/
theorem attach_error_conditions (c : AttachConfig) :
    ((connectedCallback c).2 = none ↔
      (c.hasTrack = true ∧ c.itemCount ≠ 0))
    ∧ (c.hasTrack = false →
        (connectedCallback c).2 = some "Track element not found")
    ∧ ((connectedCallback c).2 ≠ none →
        (connectedCallback c).1 = [] ∧
        AttachStep.cloneAppend ∉ (connectedCallback c).1 ∧
        AttachStep.setupResizeListener ∉ (connectedCallback c).1 ∧
        AttachStep.setupScrollListener ∉ (connectedCallback c).1 ∧
        AttachStep.setupDragListeners ∉ (connectedCallback c).1 ∧
        AttachStep.startAnimation ∉ (connectedCallback c).1) := by
  obtain ⟨ht, n⟩ := c
  cases ht <;> cases n <;>
    simp [connectedCallback, checkRequiredElements, attachSequence]

/-- Witness for claim C9: a host missing its track errors out with an
empty list of completed setup steps. -/
theorem attach_error_conditions_witness :
    ((connectedCallback (AttachConfig.mk false 3)).2 ≠ none) ∧
    (connectedCallback (AttachConfig.mk false 3)).1 = [] :=
  ⟨by decide,
    ((attach_error_conditions (AttachConfig.mk false 3)).2.2 (by decide)).1⟩

end CharOSel
